import Mathlib

/-!
Verification development for the MetaSkill repository.

The analysis subsystem (event store, pattern detection, skill
recommendation) is exercised by the test suite but its implementation
modules live outside the packaged sources, so those components are
modelled from the specification document.  The MCP-provider scaffolding
modules are embedded directly from their sources.

Machine conventions: timestamps are natural numbers (the specification
uses ISO-8601 strings, whose lexicographic order coincides with
chronological order); scores are rationals.
-/

set_option linter.unusedVariables false

namespace MetaSkill

/-- Modelled from the spec: an Event is
`{type, description, timestamp, metadata}`, immutable once appended
(spec section 3).  Timestamps are modelled as naturals. -/
structure Event where
  type : String
  description : String
  timestamp : Nat
  metadata : List (String × String) := []
deriving DecidableEq

/-- The last `n` elements of a list, in their original order: the model of
Python's `lst[-n:]` truncation used by the event store ("truncates to the
last N events", spec section 4.1). -/
def takeLast {α : Type} (n : Nat) (l : List α) : List α :=
  (l.reverse.take n).reverse

/-- Modelled from the spec: `addEvent` appends the event and truncates the
store to the last `cap` events (spec section 4.1, default cap 1000). -/
def addEvent (cap : Nat) (events : List Event) (e : Event) : List Event :=
  takeLast cap (events ++ [e])

/-- The default event-retention cap (spec sections 3 and 4.1). -/
def MAX_EVENTS : Nat := 1000

/-- Modelled from the spec: `getEvents` applies the filters in order
(type, then time, then limit-to-most-recent) and returns events in
original insertion order (spec section 4.1). -/
def getEvents (events : List Event) (filterType : Option String)
    (since : Option Nat) (limit : Option Nat) : List Event :=
  let byType := match filterType with
    | some t => events.filter (fun e => e.type == t)
    | none => events
  let byTime := match since with
    | some s => byType.filter (fun e => decide (s ≤ e.timestamp))
    | none => byType
  match limit with
  | some l => takeLast l byTime
  | none => byTime

theorem takeLast_length {α : Type} (n : Nat) (l : List α) :
    (takeLast n l).length = min n l.length := by
  simp [takeLast]

theorem takeLast_of_length_le {α : Type} {n : Nat} {l : List α}
    (h : l.length ≤ n) : takeLast n l = l := by
  have : l.reverse.length ≤ n := by simpa using h
  simp [takeLast, List.take_of_length_le this]

theorem takeLast_sublist {α : Type} (n : Nat) (l : List α) :
    (takeLast n l).Sublist l := by
  have h1 : (l.reverse.take n).Sublist l.reverse := List.take_sublist n l.reverse
  have h2 := h1.reverse
  simpa [takeLast] using h2

theorem takeLast_append_takeLast {α : Type} (n : Nat) (l₁ l₂ : List α) :
    takeLast n (takeLast n l₁ ++ l₂) = takeLast n (l₁ ++ l₂) := by
  simp only [takeLast, List.reverse_append, List.reverse_reverse]
  rw [List.take_append_eq_append_take, List.take_append_eq_append_take,
    List.take_take]
  rw [Nat.min_eq_left (Nat.sub_le n l₂.reverse.length)]

theorem takeLast_eq_drop {α : Type} (n : Nat) (l : List α) :
    takeLast n l = l.drop (l.length - n) := by
  induction l with
  | nil => simp [takeLast]
  | cons a t ih =>
    by_cases h : n ≤ t.length
    · have hs : takeLast n (a :: t) = takeLast n t := by
        simp only [takeLast, List.reverse_cons]
        rw [List.take_append_eq_append_take]
        simp [Nat.sub_eq_zero_of_le h]
      have hd : (a :: t).length - n = (t.length - n) + 1 := by
        simp only [List.length_cons]; omega
      rw [hs, ih, hd, List.drop_succ_cons]
    · push_neg at h
      have hlen : (a :: t).length ≤ n := by
        simp only [List.length_cons]; omega
      rw [takeLast_of_length_le hlen, Nat.sub_eq_zero_of_le hlen,
        List.drop_zero]

theorem foldl_addEvent (cap : Nat) (es : List Event) :
    ∀ a : List Event, a.length ≤ cap →
      es.foldl (addEvent cap) a = takeLast cap (a ++ es) := by
  induction es with
  | nil => intro a ha; simp [takeLast_of_length_le ha]
  | cons e es ih =>
    intro a ha
    have hlen : (addEvent cap a e).length ≤ cap := by
      rw [addEvent, takeLast_length]; omega
    rw [List.foldl_cons, ih (addEvent cap a e) hlen, addEvent,
      takeLast_append_takeLast]
    simp

/-- Modelled from the spec: the contents of a persisted file — either a
complete JSON document that parses to an event list, or a torn (partially
written) file (spec sections 5 and 8, atomicity property). -/
inductive FileData where
  | valid (events : List Event)
  | torn
deriving DecidableEq

/-- Modelled from the spec: the on-disk state — the status file and the
fresh temporary file used by the atomic-write discipline. -/
structure FsState where
  target : FileData
  temp : Option FileData
deriving DecidableEq

/-- The steps of one status mutation.  Writing the temporary file is split
into a begin step (the file exists but is torn) and a finish step (the
complete document is in place), so that a crash mid-write is expressible. -/
inductive WriteStep where
  | beginTemp
  | finishTemp
  | flush
  | fsync
  | rename
deriving DecidableEq

/-- Modelled from the spec: "every status mutation is written to a fresh
temporary file, flushed, fsynced, then atomically renamed over the target"
(spec section 5). -/
def atomicWriteProtocol : List WriteStep :=
  [.beginTemp, .finishTemp, .flush, .fsync, .rename]

/-- Modelled from the spec: the effect of one protocol step on the disk.
Only `rename` touches the target file, and it installs the temporary
file's contents in one atomic action. -/
def applyWriteStep (newEvents : List Event) (fs : FsState) :
    WriteStep → FsState
  | .beginTemp => { fs with temp := some .torn }
  | .finishTemp => { fs with temp := some (.valid newEvents) }
  | .flush => fs
  | .fsync => fs
  | .rename => { target := fs.temp.getD fs.target, temp := none }

def runWriteSteps (newEvents : List Event) (fs : FsState)
    (steps : List WriteStep) : FsState :=
  steps.foldl (applyWriteStep newEvents) fs

/-- Modelled from the spec: a corrupt or missing status file is recreated
from an initial empty state rather than raising (spec section 4.1). -/
def eventsOfFile : FileData → List Event
  | .valid es => es
  | .torn => []

/-- One completed `addEvent` persisted through the atomic-write
protocol. -/
def persistEvent (cap : Nat) (fs : FsState) (e : Event) : FsState :=
  runWriteSteps (addEvent cap (eventsOfFile fs.target) e) fs
    atomicWriteProtocol

def persistEvents (cap : Nat) (fs : FsState) (es : List Event) : FsState :=
  es.foldl (persistEvent cap) fs

def initFs : FsState := { target := .valid [], temp := none }

theorem persistEvents_closed_form (cap : Nat) (es : List Event) :
    persistEvents cap initFs es =
      { target := .valid (es.foldl (addEvent cap) []), temp := none } := by
  suffices h : ∀ (es : List Event) (l : List Event),
      persistEvents cap { target := .valid l, temp := none } es =
        { target := .valid (es.foldl (addEvent cap) l), temp := none } by
    exact h es []
  intro es
  induction es with
  | nil => intro l; rfl
  | cons e es ih =>
    intro l
    have hstep : persistEvent cap { target := .valid l, temp := none } e =
        { target := .valid (addEvent cap l e), temp := none } := by
      simp [persistEvent, runWriteSteps, atomicWriteProtocol,
        applyWriteStep, eventsOfFile]
    simp only [persistEvents, List.foldl_cons] at *
    rw [hstep, ih]

/-- The event used in the concrete examples: `event-i`, mirroring the
descriptions used in the event-cap test. -/
def demoEvent (i : Nat) : Event :=
  { type := "test", description := "event-" ++ toString i, timestamp := i }

def demoEvents : List Event := (List.range 1025).map demoEvent

def demoFinal : List Event := demoEvents.foldl (addEvent 1000) []

theorem runWriteSteps_take_target (newEvents l : List Event) (k : Nat) :
    (runWriteSteps newEvents { target := .valid l, temp := none }
        (atomicWriteProtocol.take k)).target = .valid l ∨
      (runWriteSteps newEvents { target := .valid l, temp := none }
        (atomicWriteProtocol.take k)).target = .valid newEvents := by
  rcases k with _ | _ | _ | _ | _ | k
  · left; rfl
  · left; rfl
  · left; rfl
  · left; rfl
  · left; rfl
  · right
    have h : atomicWriteProtocol.take (5 + k) = atomicWriteProtocol := by
      apply List.take_of_length_le
      simp [atomicWriteProtocol]
    simp only [show k + 1 + 1 + 1 + 1 + 1 = 5 + k by omega, h]
    rfl

theorem runWriteSteps_full (newEvents l : List Event) :
    runWriteSteps newEvents { target := .valid l, temp := none }
      atomicWriteProtocol = { target := .valid newEvents, temp := none } :=
  rfl

theorem demoFinal_eq_drop : demoFinal = demoEvents.drop 25 := by
  have h : demoFinal = takeLast 1000 demoEvents := by
    have := foldl_addEvent 1000 demoEvents [] (by simp)
    simpa [demoFinal] using this
  have hlen : demoEvents.length = 1025 := by
    simp [demoEvents]
  rw [h, takeLast_eq_drop, hlen]

/-- C1: starting from an empty store, after a sequence of `addEvent`
calls the store holds exactly the most recent `cap` appended events in
their original order, `getEvents` with no filters returns them all, and
the length is `min N cap`; concretely, appending `event-0 .. event-1024`
with cap 1000 leaves 1000 events, the first being `event-25` and the last
`event-1024`. -/
theorem event_cap_invariant :
    (∀ (cap : Nat) (es : List Event),
      getEvents (es.foldl (addEvent cap) []) none none none =
          es.foldl (addEvent cap) [] ∧
        es.foldl (addEvent cap) [] = takeLast cap es ∧
        (es.foldl (addEvent cap) []).length = min es.length cap) ∧
      demoFinal.length = 1000 ∧
      demoFinal[0]? = some (demoEvent 25) ∧
      demoFinal[999]? = some (demoEvent 1024) := by
  constructor
  · intro cap es
    have h : es.foldl (addEvent cap) [] = takeLast cap es := by
      simpa using foldl_addEvent cap es [] (by simp)
    refine ⟨rfl, h, ?_⟩
    rw [h, takeLast_length, Nat.min_comm]
  · refine ⟨?_, ?_, ?_⟩
    · rw [demoFinal_eq_drop]
      simp [demoEvents]
    · rw [demoFinal_eq_drop, List.getElem?_drop]
      simp [demoEvents, List.getElem?_range (by omega : 25 < 1025)]
    · rw [demoFinal_eq_drop, List.getElem?_drop]
      simp [demoEvents, List.getElem?_range (by omega : 25 + 999 < 1025)]

/-- C2: a sequence of persisted appends interrupted after any number `k`
of protocol steps of the in-flight append leaves the status file as a
complete parseable document equal to either the state before the
interrupted append or the state after it, and a completed mutation runs
the write-temp / flush / fsync / rename protocol to completion,
installing the new state. -/
theorem append_atomicity (cap : Nat) (done : List Event) (e : Event)
    (k : Nat) :
    let fs := persistEvents cap initFs done
    let next := addEvent cap (eventsOfFile fs.target) e
    let mid := runWriteSteps next fs (atomicWriteProtocol.take k)
    (∃ l, mid.target = FileData.valid l) ∧
      (mid.target = fs.target ∨ mid.target = FileData.valid next) ∧
      runWriteSteps next fs atomicWriteProtocol =
        { target := FileData.valid next, temp := none } := by
  intro fs next mid
  have hfs :
      fs = { target := .valid (done.foldl (addEvent cap) []), temp := none } :=
    persistEvents_closed_form cap done
  have hcases := runWriteSteps_take_target next
    (done.foldl (addEvent cap) []) k
  rw [← hfs] at hcases
  refine ⟨?_, ?_, ?_⟩
  · rcases hcases with h | h
    · exact ⟨done.foldl (addEvent cap) [], h⟩
    · exact ⟨next, h⟩
  · rcases hcases with h | h
    · left; rw [h, hfs]
    · right; exact h
  · rw [hfs]
    exact runWriteSteps_full next (done.foldl (addEvent cap) [])

theorem getEvents_sublist (events : List Event) (ft : Option String)
    (since : Option Nat) (limit : Option Nat) :
    (getEvents events ft since limit).Sublist events := by
  rcases ft with _ | t <;> rcases since with _ | s <;>
    rcases limit with _ | l <;> simp only [getEvents] <;>
    first
      | exact List.Sublist.refl _
      | exact takeLast_sublist _ _
      | exact List.filter_sublist _
      | exact (List.filter_sublist _).trans (List.filter_sublist _)
      | exact (takeLast_sublist _ _).trans (List.filter_sublist _)
      | exact (takeLast_sublist _ _).trans
          ((List.filter_sublist _).trans (List.filter_sublist _))

theorem getEvents_mem_type (events : List Event) (t : String)
    (since : Option Nat) (limit : Option Nat) (e : Event)
    (he : e ∈ getEvents events (some t) since limit) : e.type = t := by
  rcases since with _ | s <;> rcases limit with _ | l <;>
    simp only [getEvents] at he
  · simpa using (List.mem_filter.mp he).2
  · have := (takeLast_sublist _ _).subset he
    simpa using (List.mem_filter.mp this).2
  · have := (List.filter_sublist _).subset he
    simpa using (List.mem_filter.mp this).2
  · have h1 := (takeLast_sublist _ _).subset he
    have h2 := (List.filter_sublist _).subset h1
    simpa using (List.mem_filter.mp h2).2

theorem getEvents_mem_since (events : List Event) (ft : Option String)
    (s : Nat) (limit : Option Nat) (e : Event)
    (he : e ∈ getEvents events ft (some s) limit) : s ≤ e.timestamp := by
  rcases ft with _ | t <;> rcases limit with _ | l <;>
    simp only [getEvents] at he
  · simpa using (List.mem_filter.mp he).2
  · have := (takeLast_sublist _ _).subset he
    simpa using (List.mem_filter.mp this).2
  · simpa using (List.mem_filter.mp he).2
  · have := (takeLast_sublist _ _).subset he
    simpa using (List.mem_filter.mp this).2

theorem getEvents_length_le (events : List Event) (ft : Option String)
    (since : Option Nat) (l : Nat) :
    (getEvents events ft since (some l)).length ≤ l := by
  rcases ft with _ | t <;> rcases since with _ | s <;>
    simp only [getEvents] <;> rw [takeLast_length] <;> omega

/-- C5: `getEvents` returns a subsequence of the store in original
insertion order; with a type filter every returned event has that type,
with a time filter every returned event's timestamp is at least `since`,
with a limit the result has at most `limit` elements, and with all three
given the result is exactly the last `limit` elements of the
type-then-time-filtered sequence. -/
theorem getEvents_filter_composition (events : List Event)
    (ft : Option String) (since : Option Nat) (limit : Option Nat)
    (t : String) (s : Nat) (l : Nat) :
    (getEvents events ft since limit).Sublist events ∧
      (∀ e ∈ getEvents events (some t) since limit, e.type = t) ∧
      (∀ e ∈ getEvents events ft (some s) limit, s ≤ e.timestamp) ∧
      (getEvents events ft since (some l)).length ≤ l ∧
      getEvents events (some t) (some s) (some l) =
        takeLast l ((events.filter (fun e => e.type == t)).filter
          (fun e => decide (s ≤ e.timestamp))) :=
  ⟨getEvents_sublist events ft since limit,
    fun e he => getEvents_mem_type events t since limit e he,
    fun e he => getEvents_mem_since events ft s limit e he,
    getEvents_length_le events ft since l,
    rfl⟩

/-- The three-event store used by the filter test
(`test_get_events_with_filters`). -/
def demoStore : List Event :=
  [{ type := "api_call", description := "API call 1", timestamp := 1 },
   { type := "data_processing", description := "Process CSV", timestamp := 2 },
   { type := "api_call", description := "API call 2", timestamp := 3 }]

theorem getEvents_filter_composition_witness :
    (getEvents demoStore (some "api_call") (some 2) (some 1)).Sublist
        demoStore ∧
      (∀ e ∈ getEvents demoStore (some "api_call") (some 2) (some 1),
        e.type = "api_call") ∧
      (∀ e ∈ getEvents demoStore (some "api_call") (some 2) (some 1),
        2 ≤ e.timestamp) ∧
      (getEvents demoStore (some "api_call") (some 2) (some 1)).length ≤ 1 ∧
      getEvents demoStore (some "api_call") (some 2) (some 1) =
        takeLast 1 ((demoStore.filter (fun e => e.type == "api_call")).filter
          (fun e => decide (2 ≤ e.timestamp))) :=
  getEvents_filter_composition demoStore (some "api_call") (some 2) (some 1)
    "api_call" 2 1

/-- Modelled from the spec: one surviving bucket of `getPatternAnalysis` —
count, `frequency = count/days`, a priority tier and a suggested skill
name (spec section 4.1). -/
structure PatternStats where
  count : Nat
  frequency : ℚ
  priority : String
  suggested_skill : String
deriving DecidableEq

/-- Modelled from the spec: the priority tier of a per-day frequency
(critical ≥ 3/day, high ≥ 1/day, medium ≥ 0.5/day, else low). -/
def priorityTier (freqPerDay : ℚ) : String :=
  if 3 ≤ freqPerDay then "critical"
  else if 1 ≤ freqPerDay then "high"
  else if 1/2 ≤ freqPerDay then "medium"
  else "low"

/-- Modelled from the spec: skill-name suggestion via a fixed type→name
lookup table, falling back to `"{type}-skill"` with underscores replaced
by hyphens. -/
def suggestSkill (table : List (String × String)) (t : String) : String :=
  match table.lookup t with
  | some n => n
  | none => (t.replace "_" "-") ++ "-skill"

def secondsPerDay : Nat := 86400

/-- Modelled from the spec: the events of the trailing `days`-day
window. -/
def windowEvents (events : List Event) (now days : Nat) : List Event :=
  getEvents events none (some (now - days * secondsPerDay)) none

def typeCount (events : List Event) (t : String) : Nat :=
  (events.filter (fun e => e.type == t)).length

/-- The distinct event types occurring in a list: the keys of the
per-type buckets. -/
def eventTypes (events : List Event) : List String :=
  (events.map (fun e => e.type)).dedup

def patternStatsOf (table : List (String × String)) (win : List Event)
    (days : Nat) (t : String) : PatternStats :=
  { count := typeCount win t
    frequency := (typeCount win t : ℚ) / (days : ℚ)
    priority := priorityTier ((typeCount win t : ℚ) / (days : ℚ))
    suggested_skill := suggestSkill table t }

/-- Modelled from the spec: bucket the trailing-window events by type and
keep the buckets whose count meets the threshold (spec section 4.1). -/
def getPatternAnalysis (table : List (String × String))
    (events : List Event) (now days threshold : Nat) :
    List (String × PatternStats) :=
  (eventTypes (windowEvents events now days)).filterMap (fun t =>
    if threshold ≤ typeCount (windowEvents events now days) t then
      some (t, patternStatsOf table (windowEvents events now days) days t)
    else none)

theorem eventTypes_mem (events : List Event) (t : String) :
    t ∈ eventTypes events ↔ 0 < typeCount events t := by
  constructor
  · intro h
    obtain ⟨e, he, het⟩ : ∃ e ∈ events, e.type = t := by
      simpa [eventTypes, List.mem_dedup, List.mem_map] using h
    have hmem : e ∈ events.filter (fun e => e.type == t) := by
      rw [List.mem_filter]
      exact ⟨he, by simp [het]⟩
    have hne := List.ne_nil_of_mem hmem
    simpa [typeCount, List.length_pos] using hne
  · intro h
    rw [typeCount] at h
    obtain ⟨e, he⟩ := List.exists_mem_of_ne_nil _ (List.length_pos.mp h)
    rw [List.mem_filter] at he
    simp only [eventTypes, List.mem_dedup, List.mem_map]
    exact ⟨e, he.1, by simpa using he.2⟩

theorem mem_getPatternAnalysis (table : List (String × String))
    (events : List Event) (now days threshold : Nat) (t : String)
    (st : PatternStats) :
    (t, st) ∈ getPatternAnalysis table events now days threshold ↔
      0 < typeCount (windowEvents events now days) t ∧
        threshold ≤ typeCount (windowEvents events now days) t ∧
        st = patternStatsOf table (windowEvents events now days) days t := by
  simp only [getPatternAnalysis, List.mem_filterMap]
  constructor
  · rintro ⟨a, ha, hfa⟩
    by_cases hc : threshold ≤ typeCount (windowEvents events now days) a
    · rw [if_pos hc, Option.some_inj, Prod.mk.injEq] at hfa
      obtain ⟨rfl, rfl⟩ := hfa
      exact ⟨(eventTypes_mem _ _).mp ha, hc, rfl⟩
    · rw [if_neg hc] at hfa
      cases hfa
  · rintro ⟨h0, hc, rfl⟩
    exact ⟨t, (eventTypes_mem _ _).mpr h0, by rw [if_pos hc]⟩

/-- C6: in `getPatternAnalysis`, for a positive threshold an event type
appears in the surviving buckets if and only if its count in the trailing
window is at least the threshold; a type counted exactly `threshold - 1`
times never appears, and every surviving bucket reports
`frequency = count/days`. -/
theorem pattern_threshold_gating (table : List (String × String))
    (events : List Event) (now days threshold : Nat) (t : String)
    (ht : 1 ≤ threshold) :
    ((∃ st, (t, st) ∈ getPatternAnalysis table events now days threshold) ↔
        threshold ≤ typeCount (windowEvents events now days) t) ∧
      (typeCount (windowEvents events now days) t = threshold - 1 →
        ∀ st, (t, st) ∉ getPatternAnalysis table events now days threshold) ∧
      (∀ st, (t, st) ∈ getPatternAnalysis table events now days threshold →
        st.count = typeCount (windowEvents events now days) t ∧
          st.frequency = (st.count : ℚ) / (days : ℚ)) := by
  refine ⟨⟨?_, ?_⟩, ?_, ?_⟩
  · rintro ⟨st, hst⟩
    exact ((mem_getPatternAnalysis _ _ _ _ _ _ _).mp hst).2.1
  · intro hc
    refine ⟨patternStatsOf table (windowEvents events now days) days t, ?_⟩
    exact (mem_getPatternAnalysis _ _ _ _ _ _ _).mpr ⟨by omega, hc, rfl⟩
  · intro hc st hst
    have h := (mem_getPatternAnalysis _ _ _ _ _ _ _).mp hst
    omega
  · intro st hst
    obtain ⟨h0, hc, rfl⟩ := (mem_getPatternAnalysis _ _ _ _ _ _ _).mp hst
    exact ⟨rfl, rfl⟩

/-- The six-event store used by the pattern-analysis test
(`test_pattern_analysis`): six `api_call` events, seven-day window,
threshold 5. -/
def demoPatternStore : List Event :=
  (List.range 6).map (fun i =>
    { type := "api_call", description := "API call " ++ toString i,
      timestamp := i })

theorem pattern_threshold_gating_witness :
    ((∃ st, ("api_call", st) ∈ getPatternAnalysis [] demoPatternStore 0 7 5) ↔
        5 ≤ typeCount (windowEvents demoPatternStore 0 7) "api_call") ∧
      (typeCount (windowEvents demoPatternStore 0 7) "api_call" = 4 →
        ∀ st, ("api_call", st) ∉ getPatternAnalysis [] demoPatternStore 0 7 5) ∧
      (∀ st, ("api_call", st) ∈ getPatternAnalysis [] demoPatternStore 0 7 5 →
        st.count = typeCount (windowEvents demoPatternStore 0 7) "api_call" ∧
          st.frequency = (st.count : ℚ) / (7 : ℚ)) :=
  pattern_threshold_gating [] demoPatternStore 0 7 5 "api_call" (by decide)

/-- Modelled from the spec: a detected recurring signal with frequency
and heuristic scores in [0,1] (spec section 3). -/
structure PatternInfo where
  pattern_type : String
  description : String := ""
  frequency : Nat
  impact_score : ℚ
  trend_score : ℚ
  urgency_score : ℚ
  examples : List String := []
deriving DecidableEq

/-- Modelled from the spec: the five scoring weights (spec section
4.4). -/
structure Weights where
  frequency : ℚ
  impact : ℚ
  trend : ℚ
  urgency : ℚ
  roi : ℚ
deriving DecidableEq

/-- The default weights: frequency 0.25, impact 0.25, trend 0.15,
urgency 0.20, roi 0.15 (spec section 4.4). -/
def defaultWeights : Weights :=
  { frequency := 25/100, impact := 25/100, trend := 15/100,
    urgency := 20/100, roi := 15/100 }

def weightSum (w : Weights) : ℚ :=
  w.frequency + w.impact + w.trend + w.urgency + w.roi

/-- Modelled from the spec: weights not summing to 1.0 are reported as a
warning; analysis proceeds unchanged (spec sections 4.4 and 7). -/
def validateWeights (w : Weights) : List String :=
  if weightSum w = 1 then [] else ["scoring weights do not sum to 1.0"]

/-- Modelled from the spec: recommender configuration — weights, minimum
priority score (default 0.5), high-frequency threshold, and the fixed
domain→skill-template table (spec section 4.4). -/
structure RecConfig where
  weights : Weights
  minPriorityScore : ℚ
  highFreqThreshold : ℚ
  templates : List (String × String)

def defaultMinPriorityScore : ℚ := 1/2

/-- Modelled from the spec: a skill recommendation with its composite and
component scores (spec section 3). -/
structure SkillRecommendation where
  skill_name : String
  skill_type : String
  description : String
  reason : String
  priority_score : ℚ
  frequency_score : ℚ
  impact_score : ℚ
  trend_score : ℚ
  urgency_score : ℚ
  roi_score : ℚ
  supporting_patterns : List String
  example_use_cases : List String
deriving DecidableEq

def sumFrequencies (ps : List PatternInfo) : ℚ :=
  ((ps.map (fun p => p.frequency)).sum : ℚ)

def meanScore (f : PatternInfo → ℚ) (ps : List PatternInfo) : ℚ :=
  (ps.map f).sum / (ps.length : ℚ)

/-- Modelled from the spec:
`frequency_score = min(Σ frequency / (highFreqThreshold × patternCount), 1)`. -/
def frequencyScoreOf (hft : ℚ) (ps : List PatternInfo) : ℚ :=
  min (sumFrequencies ps / (hft * (ps.length : ℚ))) 1

/-- Modelled from the spec:
`roi_score = min((Σ frequency / 10) × mean impact, 1)`. -/
def roiScoreOf (ps : List PatternInfo) : ℚ :=
  min ((sumFrequencies ps / 10) * meanScore (fun p => p.impact_score) ps) 1

/-- Modelled from the spec:
`priority_score = Σ(sub_score × configured_weight)` — computed with the
configured weights exactly as given, with no renormalization. -/
def priorityScoreOf (w : Weights) (f i t u r : ℚ) : ℚ :=
  f * w.frequency + i * w.impact + t * w.trend + u * w.urgency + r * w.roi

/-- Modelled from the spec: a deterministic human-readable reason built
from pattern counts and the pattern types present. -/
def reasonFor (ps : List PatternInfo) : String :=
  "Based on " ++ toString ps.length ++ " detected patterns" ++
    (if ps.any (fun p => p.pattern_type == "problem_recurrence") then
      "; addresses recurring problems" else "") ++
    (if ps.any (fun p => p.pattern_type == "skill_gap") then
      "; fills a skill gap" else "")

def mkRecommendation (cfg : RecConfig) (domain tmpl : String)
    (ps : List PatternInfo) : SkillRecommendation :=
  { skill_name := tmpl
    skill_type := domain
    description := "Skill recommendation for the " ++ domain ++ " domain"
    reason := reasonFor ps
    priority_score := priorityScoreOf cfg.weights
      (frequencyScoreOf cfg.highFreqThreshold ps)
      (meanScore (fun p => p.impact_score) ps)
      (meanScore (fun p => p.trend_score) ps)
      (meanScore (fun p => p.urgency_score) ps)
      (roiScoreOf ps)
    frequency_score := frequencyScoreOf cfg.highFreqThreshold ps
    impact_score := meanScore (fun p => p.impact_score) ps
    trend_score := meanScore (fun p => p.trend_score) ps
    urgency_score := meanScore (fun p => p.urgency_score) ps
    roi_score := roiScoreOf ps
    supporting_patterns := ps.map (fun p => p.description)
    example_use_cases := ps.flatMap (fun p => p.examples) }

/-- Modelled from the spec: a domain is recommended only with ≥ 2
patterns or at least one pattern of frequency ≥ 5 (spec section 4.4). -/
def domainQualifies (ps : List PatternInfo) : Bool :=
  decide (2 ≤ ps.length) || ps.any (fun p => decide (5 ≤ p.frequency))

/-- Descending order on recommendations by priority score. -/
def recGe (a b : SkillRecommendation) : Prop :=
  b.priority_score ≤ a.priority_score

instance : DecidableRel recGe := fun a b =>
  inferInstanceAs (Decidable (b.priority_score ≤ a.priority_score))

instance : IsTotal SkillRecommendation recGe :=
  ⟨fun a b => le_total b.priority_score a.priority_score⟩

instance : IsTrans SkillRecommendation recGe :=
  ⟨fun _ _ _ hab hbc => le_trans hbc hab⟩

/-- Modelled from the spec: keep the qualifying domains that have a
template, filter by the configured minimum priority score, and sort
descending by priority score (spec section 4.4). -/
def recommend (cfg : RecConfig)
    (buckets : List (String × List PatternInfo)) :
    List SkillRecommendation :=
  List.insertionSort recGe
    ((buckets.filterMap (fun b =>
      match cfg.templates.lookup b.1 with
      | some tmpl =>
        if domainQualifies b.2 then
          some (mkRecommendation cfg b.1 tmpl b.2)
        else none
      | none => none)).filter
      (fun r => decide (cfg.minPriorityScore ≤ r.priority_score)))

theorem mem_recommend (cfg : RecConfig)
    (buckets : List (String × List PatternInfo)) (r : SkillRecommendation)
    (hr : r ∈ recommend cfg buckets) :
    cfg.minPriorityScore ≤ r.priority_score ∧
      ∃ b ∈ buckets, ∃ tmpl, r = mkRecommendation cfg b.1 tmpl b.2 := by
  rw [recommend, List.mem_insertionSort, List.mem_filter] at hr
  obtain ⟨hmem, hle⟩ := hr
  rw [List.mem_filterMap] at hmem
  obtain ⟨b, hb, hfb⟩ := hmem
  refine ⟨by simpa using hle, b, hb, ?_⟩
  rcases hlook : cfg.templates.lookup b.1 with _ | tmpl
  · simp [hlook] at hfb
  · simp only [hlook] at hfb
    by_cases hq : domainQualifies b.2 = true
    · rw [if_pos hq, Option.some_inj] at hfb
      exact ⟨tmpl, hfb.symm⟩
    · rw [if_neg hq] at hfb
      cases hfb

/-- C3: every recommendation in a produced list has priority score at
least the configured minimum (default 0.5), and the list is sorted in
non-increasing order of priority score. -/
theorem recommendation_filter_and_order (cfg : RecConfig)
    (buckets : List (String × List PatternInfo)) :
    (∀ r ∈ recommend cfg buckets,
        cfg.minPriorityScore ≤ r.priority_score) ∧
      (recommend cfg buckets).Pairwise
        (fun a b => b.priority_score ≤ a.priority_score) ∧
      defaultMinPriorityScore = 1/2 := by
  refine ⟨fun r hr => (mem_recommend cfg buckets r hr).1, ?_, rfl⟩
  exact List.sorted_insertionSort recGe _

/-- C4: for every emitted recommendation the priority score equals the
weighted sum of the five sub-scores with the configured weights exactly
(hence within tolerance 1e-9), for any weights — including weights not
summing to 1, which only produce a validation warning and are never
renormalized; the default weights are 0.25, 0.25, 0.15, 0.20, 0.15. -/
theorem weight_identity (cfg : RecConfig)
    (buckets : List (String × List PatternInfo)) :
    (∀ r ∈ recommend cfg buckets,
        r.priority_score =
            r.frequency_score * cfg.weights.frequency +
              r.impact_score * cfg.weights.impact +
              r.trend_score * cfg.weights.trend +
              r.urgency_score * cfg.weights.urgency +
              r.roi_score * cfg.weights.roi ∧
          |r.priority_score -
              (r.frequency_score * cfg.weights.frequency +
                r.impact_score * cfg.weights.impact +
                r.trend_score * cfg.weights.trend +
                r.urgency_score * cfg.weights.urgency +
                r.roi_score * cfg.weights.roi)| ≤ 1 / 1000000000) ∧
      (∀ w, validateWeights w = [] ↔ weightSum w = 1) ∧
      defaultWeights.frequency = 25 / 100 ∧
      defaultWeights.impact = 25 / 100 ∧
      defaultWeights.trend = 15 / 100 ∧
      defaultWeights.urgency = 20 / 100 ∧
      defaultWeights.roi = 15 / 100 := by
  refine ⟨?_, ?_, rfl, rfl, rfl, rfl, rfl⟩
  · intro r hr
    obtain ⟨b, _, tmpl, rfl⟩ := (mem_recommend cfg buckets r hr).2
    have hid : (mkRecommendation cfg b.1 tmpl b.2).priority_score =
        (mkRecommendation cfg b.1 tmpl b.2).frequency_score *
            cfg.weights.frequency +
          (mkRecommendation cfg b.1 tmpl b.2).impact_score *
            cfg.weights.impact +
          (mkRecommendation cfg b.1 tmpl b.2).trend_score *
            cfg.weights.trend +
          (mkRecommendation cfg b.1 tmpl b.2).urgency_score *
            cfg.weights.urgency +
          (mkRecommendation cfg b.1 tmpl b.2).roi_score *
            cfg.weights.roi := rfl
    refine ⟨hid, ?_⟩
    rw [hid]
    simp
  · intro w
    rw [validateWeights]
    by_cases h : weightSum w = 1
    · simp [h]
    · simp [h]

/-- The demonstration recommender input: a testing-domain bucket with two
high-impact recurring-problem patterns. -/
def demoRecPattern (i : Nat) : PatternInfo :=
  { pattern_type := "problem_recurrence"
    description := "flaky tests " ++ toString i
    frequency := 5
    impact_score := 1
    trend_score := 1
    urgency_score := 1 }

def demoRecConfig : RecConfig :=
  { weights := defaultWeights
    minPriorityScore := defaultMinPriorityScore
    highFreqThreshold := 5
    templates := [("testing", "TEST-GUARDIAN")] }

def demoBuckets : List (String × List PatternInfo) :=
  [("testing", [demoRecPattern 0, demoRecPattern 1])]

def demoRecommendation : SkillRecommendation :=
  mkRecommendation demoRecConfig "testing" "TEST-GUARDIAN"
    [demoRecPattern 0, demoRecPattern 1]

theorem demoRecommendation_priority :
    demoRecommendation.priority_score = 1 := by
  norm_num [demoRecommendation, mkRecommendation, priorityScoreOf,
    frequencyScoreOf, roiScoreOf, meanScore, sumFrequencies, demoRecPattern,
    demoRecConfig, defaultWeights]

theorem demo_recommend_eq :
    recommend demoRecConfig demoBuckets = [demoRecommendation] := by
  have h1 : (demoBuckets.filterMap (fun b =>
      match demoRecConfig.templates.lookup b.1 with
      | some tmpl =>
        if domainQualifies b.2 then
          some (mkRecommendation demoRecConfig b.1 tmpl b.2)
        else none
      | none => none)) = [demoRecommendation] := by
    simp [demoBuckets, demoRecConfig, demoRecommendation, domainQualifies,
      List.lookup]
  have h2 : decide (demoRecConfig.minPriorityScore ≤
      demoRecommendation.priority_score) = true := by
    rw [decide_eq_true_iff, demoRecommendation_priority]
    norm_num [demoRecConfig, defaultMinPriorityScore]
  rw [recommend, h1]
  simp [List.filter, h2, List.insertionSort]

theorem demoRecommendation_mem :
    demoRecommendation ∈ recommend demoRecConfig demoBuckets := by
  rw [demo_recommend_eq]
  exact List.mem_singleton.mpr rfl

theorem recommendation_filter_and_order_witness :
    demoRecConfig.minPriorityScore ≤ demoRecommendation.priority_score :=
  (recommendation_filter_and_order demoRecConfig demoBuckets).1
    demoRecommendation demoRecommendation_mem

theorem weight_identity_witness :
    demoRecommendation.priority_score =
      demoRecommendation.frequency_score * demoRecConfig.weights.frequency +
        demoRecommendation.impact_score * demoRecConfig.weights.impact +
        demoRecommendation.trend_score * demoRecConfig.weights.trend +
        demoRecommendation.urgency_score * demoRecConfig.weights.urgency +
        demoRecommendation.roi_score * demoRecConfig.weights.roi :=
  ((weight_identity demoRecConfig demoBuckets).1
    demoRecommendation demoRecommendation_mem).1

/-- Modelled from the spec: the slice of a SessionRecord the detectors
consume (spec section 3). -/
structure SessionRecord where
  agent : String := ""
  changed_files : List String := []
  problems_solved : List String := []
deriving DecidableEq

/-- Modelled from the spec: a file-correlation pattern — an unordered
pair of co-changed files with its co-change count.  The fixed heuristic
impact/trend/urgency constants are left unspecified by the spec and are
not part of this claim. -/
structure FileCorrelationPattern where
  pattern_type : String := "file_correlation"
  pair : String × String
  frequency : Nat
deriving DecidableEq

/-- Every unordered pair of files of one session, represented by the
(first, later) occurrence order within the session's file list. -/
def filePairsOf : List String → List (String × String)
  | [] => []
  | f :: rest => rest.map (fun g => (f, g)) ++ filePairsOf rest

def allCoChangePairs (sessions : List SessionRecord) :
    List (String × String) :=
  sessions.flatMap (fun s => filePairsOf s.changed_files)

/-- The number of sessions' pair occurrences of `p`: its co-change
count. -/
def pairCount (sessions : List SessionRecord) (p : String × String) : Nat :=
  (allCoChangePairs sessions).count p

/-- Modelled from the spec: emit the top 10 co-changed pairs whose count
meets the configured threshold (default 2) (spec section 4.3). -/
def fileCorrelation (sessions : List SessionRecord) (threshold : Nat) :
    List FileCorrelationPattern :=
  ((List.insertionSort
      (fun p q => pairCount sessions q ≤ pairCount sessions p)
      ((allCoChangePairs sessions).dedup.filter
        (fun p => decide (threshold ≤ pairCount sessions p)))).take 10).map
    (fun p => { pair := p, frequency := pairCount sessions p })

/-- Three sessions, each touching exactly `a.py` and `b.py`. -/
def threeABSessions : List SessionRecord :=
  List.replicate 3 { changed_files := ["a.py", "b.py"] }

/-- C7: three sessions each touching `[a.py, b.py]` with threshold 2
yield exactly one `file_correlation` pattern, for `(a.py, b.py)` with
frequency 3; in general every emitted pattern's frequency is its pair's
co-change count, that count meets the threshold, and at most 10 patterns
are emitted. -/
theorem file_correlation_detector :
    fileCorrelation threeABSessions 2 =
        [{ pattern_type := "file_correlation", pair := ("a.py", "b.py"),
           frequency := 3 }] ∧
      (∀ (sessions : List SessionRecord) (threshold : Nat)
          (pat : FileCorrelationPattern),
        pat ∈ fileCorrelation sessions threshold →
          pat.frequency = pairCount sessions pat.pair ∧
            threshold ≤ pat.frequency ∧
            pat.pattern_type = "file_correlation") ∧
      (∀ (sessions : List SessionRecord) (threshold : Nat),
        (fileCorrelation sessions threshold).length ≤ 10) := by
  refine ⟨by decide, ?_, ?_⟩
  · intro sessions threshold pat hpat
    rw [fileCorrelation, List.mem_map] at hpat
    obtain ⟨p, hp, rfl⟩ := hpat
    have hp2 := List.take_subset _ _ hp
    rw [List.mem_insertionSort, List.mem_filter] at hp2
    have hle : threshold ≤ pairCount sessions p := by simpa using hp2.2
    exact ⟨rfl, hle, rfl⟩
  · intro sessions threshold
    rw [fileCorrelation, List.length_map]
    exact List.length_take_le _ _

def demoABPattern : FileCorrelationPattern :=
  { pair := ("a.py", "b.py"), frequency := 3 }

theorem file_correlation_detector_witness :
    demoABPattern.frequency = pairCount threeABSessions demoABPattern.pair ∧
      2 ≤ demoABPattern.frequency ∧
      demoABPattern.pattern_type = "file_correlation" :=
  file_correlation_detector.2.1 threeABSessions 2 demoABPattern (by decide)

/-- The allowlist of catalogue sources; intentionally empty in the
scaffolding (`skills/mcp_provider/discovery/sources.py`). -/
def DEFAULT_SOURCES : List String := []

/-- The loop of `resolve_sources`: the first URL absent from the
allowlist raises `SourceNotAllowedError`; allowlisted URLs accumulate in
request order. -/
def resolveLoop : List String → List String → Except String (List String)
  | [], resolved => .ok resolved.reverse
  | url :: rest, resolved =>
    if url ∈ DEFAULT_SOURCES then resolveLoop rest (url :: resolved)
    else .error ("Source '" ++ url ++ "' is not allowlisted.")

/-- Embeds `resolve_sources` (`skills/mcp_provider/discovery/sources.py`):
`None` resolves to a copy of the allowlist, otherwise every requested URL
must be allowlisted. -/
def resolve_sources : Option (List String) → Except String (List String)
  | none => .ok DEFAULT_SOURCES
  | some requested => resolveLoop requested []

/-- C8: because the allowlist is empty, `resolve_sources` can never
return a non-empty list — `None` and the empty request resolve to the
empty list, and any request starting with a URL fails on that first
URL. -/
theorem resolve_sources_never_nonempty :
    resolve_sources none = .ok [] ∧
      resolve_sources (some []) = .ok [] ∧
      (∀ (u : String) (rest : List String),
        resolve_sources (some (u :: rest)) =
          .error ("Source '" ++ u ++ "' is not allowlisted.")) ∧
      (∀ (req : Option (List String)) (xs : List String),
        resolve_sources req = .ok xs → xs = []) := by
  refine ⟨rfl, rfl, ?_, ?_⟩
  · intro u rest
    simp [resolve_sources, resolveLoop, DEFAULT_SOURCES]
  · intro req xs h
    rcases req with _ | (_ | ⟨u, rest⟩)
    · simpa [resolve_sources, DEFAULT_SOURCES] using h
    · simpa [resolve_sources, resolveLoop] using h
    · simp [resolve_sources, resolveLoop, DEFAULT_SOURCES] at h

theorem resolve_sources_never_nonempty_witness : ([] : List String) = [] :=
  resolve_sources_never_nonempty.2.2.2 none [] rfl

/-- A Python runtime value as it can appear in a `Candidate` field: the
dataclass fields are typed by annotation only, so `None`, strings, tuples
and lists can all occur at run time (the scaffolding test passes
`capabilities=()`). -/
inductive PyValue where
  | pyNone
  | pyStr (s : String)
  | pyTuple (xs : List String)
  | pyList (xs : List String)
deriving DecidableEq

/-- Embeds the dataclass `Candidate`
(`skills/mcp_provider/provider_api.py`); the mapping-valued `metadata`
field is not consulted by the embedded operations. -/
structure Candidate where
  id : PyValue
  name : PyValue
  capabilities : PyValue
  transport : PyValue
  docker_image : PyValue := .pyNone
  docs_url : PyValue := .pyNone
  source : PyValue := .pyNone
deriving DecidableEq

def REQUIRED_FIELDS : List String :=
  ["id", "name", "capabilities", "transport"]

/-- Embeds `getattr(candidate, field_name, None)`. -/
def getField (c : Candidate) : String → PyValue
  | "id" => c.id
  | "name" => c.name
  | "capabilities" => c.capabilities
  | "transport" => c.transport
  | "docker_image" => c.docker_image
  | "docs_url" => c.docs_url
  | "source" => c.source
  | _ => .pyNone

/-- Embeds the membership test `value in (None, "", ())`: Python equality
against that tuple holds only for `None`, the empty string and the empty
tuple — an empty list compares unequal to the empty tuple. -/
def isMissingValue : PyValue → Bool
  | .pyNone => true
  | .pyStr s => s == ""
  | .pyTuple xs => xs.isEmpty
  | .pyList _ => false

/-- The loop of `validate_candidate` over `REQUIRED_FIELDS`
(`skills/mcp_provider/selection/validator.py`). -/
def validateLoop (c : Candidate) : List String → Except String Unit
  | [] => .ok ()
  | f :: rest =>
    if isMissingValue (getField c f) then
      .error ("Candidate missing required field: " ++ f)
    else validateLoop c rest

def validate_candidate (c : Candidate) : Except String Unit :=
  validateLoop c REQUIRED_FIELDS

theorem validate_candidate_unfold (c : Candidate) :
    validate_candidate c =
      if isMissingValue c.id then
        .error "Candidate missing required field: id"
      else if isMissingValue c.name then
        .error "Candidate missing required field: name"
      else if isMissingValue c.capabilities then
        .error "Candidate missing required field: capabilities"
      else if isMissingValue c.transport then
        .error "Candidate missing required field: transport"
      else .ok () := rfl

/-- The scaffolding test's candidate with `capabilities=()` (rejected). -/
def tupleCapabilitiesCandidate : Candidate :=
  { id := .pyStr "demo", name := .pyStr "Demo",
    capabilities := .pyTuple [], transport := .pyStr "stdio" }

/-- The same candidate with `capabilities=[]` (accepted). -/
def listCapabilitiesCandidate : Candidate :=
  { id := .pyStr "demo", name := .pyStr "Demo",
    capabilities := .pyList [], transport := .pyStr "stdio" }

/-- C9: `validate_candidate` raises exactly when one of the four required
fields holds `None`, the empty string, or the empty tuple, and returns
normally otherwise; a candidate with `capabilities=[]` passes while one
with `capabilities=()` is rejected. -/
theorem validate_candidate_spec (c : Candidate) :
    ((∃ msg, validate_candidate c = Except.error msg) ↔
        (isMissingValue c.id = true ∨ isMissingValue c.name = true ∨
          isMissingValue c.capabilities = true ∨
          isMissingValue c.transport = true)) ∧
      (validate_candidate c = Except.ok () ↔
        ¬(isMissingValue c.id = true ∨ isMissingValue c.name = true ∨
          isMissingValue c.capabilities = true ∨
          isMissingValue c.transport = true)) ∧
      validate_candidate listCapabilitiesCandidate = Except.ok () ∧
      validate_candidate tupleCapabilitiesCandidate =
        Except.error "Candidate missing required field: capabilities" := by
  refine ⟨?_, ?_, rfl, rfl⟩ <;>
    by_cases h1 : isMissingValue c.id = true <;>
      by_cases h2 : isMissingValue c.name = true <;>
        by_cases h3 : isMissingValue c.capabilities = true <;>
          by_cases h4 : isMissingValue c.transport = true <;>
            simp [validate_candidate_unfold, h1, h2, h3, h4]

theorem validate_candidate_spec_witness :
    ∃ msg, validate_candidate tupleCapabilitiesCandidate =
      Except.error msg :=
  (validate_candidate_spec tupleCapabilitiesCandidate).1.mpr
    (Or.inr (Or.inr (Or.inl rfl)))

/-- Python's `str()` of a candidate field as interpolated by the f-string
in `generate_tool_artifacts`. -/
def pyFormat : PyValue → String
  | .pyStr s => s
  | .pyNone => "None"
  | .pyList xs =>
    "[" ++ String.intercalate ", " (xs.map (fun x => "'" ++ x ++ "'")) ++ "]"
  | .pyTuple [x] => "('" ++ x ++ "',)"
  | .pyTuple xs =>
    "(" ++ String.intercalate ", " (xs.map (fun x => "'" ++ x ++ "'")) ++ ")"

/-- Embeds `ToolConfig` (`skills/mcp_provider/provider_api.py`); paths
are segment lists and `pathlib`'s `/` is segment append. -/
structure ToolConfig where
  tool_name : PyValue
  skill_path : List String
  manifest_path : List String
  env_file_path : Option (List String) := none
  extra_files : List (List String) := []
deriving DecidableEq

/-- Embeds `generate_tool_artifacts`
(`skills/mcp_provider/attach/artifacts.py`): a pure path computation with
no filesystem operations. -/
def generate_tool_artifacts (skill_path : List String)
    (candidate : Candidate) (mode : String)
    (intents : Option (List String)) : ToolConfig :=
  { tool_name := candidate.id
    skill_path := skill_path
    manifest_path :=
      (skill_path ++ ["tools"]) ++
        ["mcp_" ++ pyFormat candidate.id ++ ".json"]
    env_file_path := some (skill_path ++ [".env.mcp"])
    extra_files := [skill_path ++ ["tools"]] }

/-- C10: `generate_tool_artifacts` depends only on `skill_path` and
`candidate.id` — its outputs are the stated pure path computations, and
two calls agreeing on `candidate.id` agree on the whole result whatever
`mode`, `intents`, and the remaining candidate fields are. -/
theorem generate_tool_artifacts_pure (skill_path : List String)
    (c c' : Candidate) (mode mode' : String)
    (intents intents' : Option (List String)) (hid : c.id = c'.id) :
    (generate_tool_artifacts skill_path c mode intents).tool_name = c.id ∧
      (generate_tool_artifacts skill_path c mode intents).skill_path =
        skill_path ∧
      (generate_tool_artifacts skill_path c mode intents).manifest_path =
        skill_path ++ ["tools", "mcp_" ++ pyFormat c.id ++ ".json"] ∧
      (generate_tool_artifacts skill_path c mode intents).env_file_path =
        some (skill_path ++ [".env.mcp"]) ∧
      (generate_tool_artifacts skill_path c mode intents).extra_files =
        [skill_path ++ ["tools"]] ∧
      generate_tool_artifacts skill_path c mode intents =
        generate_tool_artifacts skill_path c' mode' intents' := by
  refine ⟨rfl, rfl, by simp [generate_tool_artifacts], rfl, rfl, ?_⟩
  simp [generate_tool_artifacts, hid]

/-- The scaffolding test's candidate (`capabilities=("sql.query",)`). -/
def demoCandidateA : Candidate :=
  { id := .pyStr "demo", name := .pyStr "Demo",
    capabilities := .pyTuple ["sql.query"], transport := .pyStr "stdio" }

/-- A candidate sharing only `id` with `demoCandidateA`. -/
def demoCandidateB : Candidate :=
  { id := .pyStr "demo", name := .pyStr "Other",
    capabilities := .pyList [], transport := .pyStr "http",
    docker_image := .pyStr "demo:1.0" }

theorem generate_tool_artifacts_pure_witness :
    (generate_tool_artifacts ["tmp"] demoCandidateA "default"
        none).tool_name = demoCandidateA.id ∧
      (generate_tool_artifacts ["tmp"] demoCandidateA "default"
        none).skill_path = ["tmp"] ∧
      (generate_tool_artifacts ["tmp"] demoCandidateA "default"
        none).manifest_path =
        ["tmp"] ++ ["tools", "mcp_" ++ pyFormat demoCandidateA.id ++ ".json"] ∧
      (generate_tool_artifacts ["tmp"] demoCandidateA "default"
        none).env_file_path = some (["tmp"] ++ [".env.mcp"]) ∧
      (generate_tool_artifacts ["tmp"] demoCandidateA "default"
        none).extra_files = [["tmp"] ++ ["tools"]] ∧
      generate_tool_artifacts ["tmp"] demoCandidateA "default" none =
        generate_tool_artifacts ["tmp"] demoCandidateB "custom"
          (some ["sql.query"]) :=
  generate_tool_artifacts_pure ["tmp"] demoCandidateA demoCandidateB
    "default" "custom" none (some ["sql.query"]) rfl

end MetaSkill
